import Mathlib

/-!
Verification of the CryptoWatcher market-data and detection engine.

Shallow embedding of the relevant parts of `src/common/math.py`,
`src/core/market.py` and `src/core/detector.py`.  Python floats are
modelled as rationals (`ℚ`), Python lists as `List ℚ`, dictionaries as
association lists, and fallible operations as `Option`.
-/

namespace CryptoWatcher

/-! ## src/common/math.py -/

/-- Embedding of `ar_moving_average` (src/common/math.py, lines 54-72):
`result = [0.0]*len(source); for i in range(window_size, len(source)):
result[i] = sum(source[i-window_size:i]) / window_size`. -/
def ar_moving_average (source : List ℚ) (window_size : ℕ) : List ℚ :=
  (List.range source.length).map (fun i =>
    if window_size ≤ i then
      ((source.drop (i - window_size)).take window_size).sum / window_size
    else 0)

/-- Specification-side definition: the arithmetic mean of the `w` elements
of `source` strictly before index `i` (`source[i-w..i-1]`), written with
individual index lookups rather than the slice used by the code. -/
def trailing_mean (source : List ℚ) (w i : ℕ) : ℚ :=
  (((List.range w).map (fun k => source.getD (i - w + k) 0)).sum) / w

/-! ## src/core/market.py : tick state -/

/-- Per-pair slice of the `Market` tick state: the rolling arrays
`close_times[pair]`, `close_values[pair]`, `base_24hr_volumes[pair][0]`
and their backup counterparts. -/
structure PairTicks where
  close_times : List ℚ
  close_values : List ℚ
  volumes : List ℚ
  close_times_backup : List ℚ
  close_values_backup : List ℚ
  volumes_backup : List ℚ
deriving Repr, DecidableEq

/-- Slice of the global `config` dict used by the tick pipeline. -/
structure MarketConfig where
  tick_interval_secs : ℤ
  tick_gap_max : ℕ
  min_tick_length : ℕ
deriving Repr, DecidableEq

/-- Python float modulus `a % n` for a positive integer modulus:
`a - n * floor(a / n)`. -/
def qmod (a : ℚ) (n : ℤ) : ℚ :=
  a - n * (⌊a / (n : ℚ)⌋ : ℤ)

/-- Embedding of `Market._get_tick_delta` (src/core/market.py, lines
942-987).  Returns `(close_time, tick_gap)`, or `none` for the early
returns (no last time, caller behind, or called before the next tick
boundary). -/
def get_tick_delta (cfg : MarketConfig) (close_times : List ℚ)
    (current_time : ℚ) : Option (ℚ × ℕ) :=
  match close_times.getLast? with
  | none => none
  | some last_time =>
    let interval_secs := cfg.tick_interval_secs
    let close_time := current_time - qmod current_time interval_secs
    if close_time < last_time then none
    else
      let delta_seconds : ℤ := ⌊close_time - last_time⌋
      if delta_seconds = 0 then none
      else if delta_seconds > interval_secs then
        some (close_time, (delta_seconds / interval_secs).toNat)
      else
        some (close_time, 0)

/-- Embedding of the backup lookup inside `Market._restore_ticks`:
`self.close_times_backup[pair].index(timestamp)` followed by the
positional reads of the backup volume and value.  `none` models the
`ValueError`/`KeyError` caught by the interpolation fallback. -/
def restore_lookup (st : PairTicks) (timestamp : ℚ) : Option (ℚ × ℚ) :=
  match st.close_times_backup.findIdx? (fun t => decide (t = timestamp)) with
  | none => none
  | some i =>
    match st.volumes_backup.get? i, st.close_values_backup.get? i with
    | some volume, some value => some (volume, value)
    | _, _ => none

/-- Embedding of the loop body sequence of `Market._restore_ticks`
(src/core/market.py, lines 1020-1039).  `last_volume`/`last_value` are the
values captured before the loop (the code never updates them inside the
loop); `index` counts loop iterations already performed. -/
def restore_ticks_loop (interval_secs : ℤ) (num : ℕ) (end_value end_volume
    last_value last_volume : ℚ) : ℕ → ℕ → PairTicks → PairTicks × ℕ
  | 0, interpolated, st => (st, interpolated)
  | n + 1, interpolated, st =>
    let index := num - (n + 1)
    let timestamp := st.close_times.getLast?.getD 0 + interval_secs
    match restore_lookup st timestamp with
    | some (volume, value) =>
      restore_ticks_loop interval_secs num end_value end_volume last_value
        last_volume n interpolated
        { st with
          volumes := st.volumes ++ [volume]
          close_values := st.close_values ++ [value]
          close_times := st.close_times ++ [timestamp] }
    | none =>
      let volume_step := (end_volume - last_volume) / ((num - index : ℕ) + 1 : ℚ)
      let value_step := (end_value - last_value) / ((num - index : ℕ) + 1 : ℚ)
      let volume := last_volume + volume_step
      let value := last_value + value_step
      restore_ticks_loop interval_secs num end_value end_volume last_value
        last_volume n (interpolated + 1)
        { st with
          volumes := st.volumes ++ [volume]
          close_values := st.close_values ++ [value]
          close_times := st.close_times ++ [timestamp] }

/-- Embedding of `Market._restore_ticks` (src/core/market.py, lines
989-1041).  Returns the updated arrays and the number of interpolated
(not restored-from-backup) ticks. -/
def restore_ticks (cfg : MarketConfig) (st : PairTicks) (num : ℕ)
    (end_value end_volume : ℚ) : PairTicks × ℕ :=
  if num = 0 then (st, 0)
  else
    let last_volume := st.volumes.getLast?.getD 0
    let last_value := st.close_values.getLast?.getD 0
    restore_ticks_loop cfg.tick_interval_secs num end_value end_volume
      last_value last_volume num 0 st

/-- Embedding of `Market._truncate_tick_data` (src/core/market.py, lines
1244-1258). -/
def truncate_tick_data (cfg : MarketConfig) (st : PairTicks) : PairTicks :=
  let tr : ℤ := (st.close_times.length : ℤ) - cfg.min_tick_length
  if tr > 60 then
    { st with
      volumes := st.volumes.drop tr.toNat
      close_values := st.close_values.drop tr.toNat
      close_times := st.close_times.drop tr.toNat }
  else st

/-- Embedding of `Market._backup_tick_data` (src/core/market.py, lines
1273-1289): snapshots the most recent `min_tick_length` ticks. -/
def backup_tick_data (cfg : MarketConfig) (st : PairTicks) : PairTicks :=
  { st with
    volumes_backup := st.volumes.drop (st.volumes.length - cfg.min_tick_length)
    close_values_backup :=
      st.close_values.drop (st.close_values.length - cfg.min_tick_length)
    close_times_backup :=
      st.close_times.drop (st.close_times.length - cfg.min_tick_length) }

/-- Embedding of `Market.update_tick_data` (src/core/market.py, lines
882-940) for one pair.  `close_value`/`base_24hr_volume` stand for the
values returned by `api.get_last_values`; `none` models the `return None`
paths (too early, greylisting, or an exception). -/
def update_tick_data (cfg : MarketConfig) (st : PairTicks)
    (current_time close_value base_24hr_volume : ℚ) : Option PairTicks :=
  match get_tick_delta cfg st.close_times current_time with
  | none => none
  | some (close_time, tick_gap) =>
    if tick_gap > cfg.tick_gap_max then none
    else
      let (st1, _interpolated) :=
        restore_ticks cfg st tick_gap close_value base_24hr_volume
      let st2 :=
        { st1 with
          close_times := st1.close_times ++ [close_time]
          close_values := st1.close_values ++ [close_value]
          volumes := st1.volumes ++ [base_24hr_volume] }
      some (backup_tick_data cfg (truncate_tick_data cfg st2))

/-- Density check for a close-times sequence: every two consecutive stored
tick times differ by exactly the configured interval. -/
def tick_times_dense : List ℚ → ℤ → Bool
  | [], _ => true
  | [_], _ => true
  | a :: b :: rest, interval =>
    decide (b - a = (interval : ℚ)) && tick_times_dense (b :: rest) interval

/-! ## src/core/market.py : pair change filter -/

/-- Slice of `config` used by `Market.apply_pair_change_filter`.  In the
source both `change_min` and `change_max` are read from
`config['pair_change_min']` (src/core/market.py, lines 528-529), while the
drop threshold comes from the separate `config['pair_change_cutoff']`. -/
structure PairChangeConfig where
  pair_change_filter : Bool
  pair_dip_filter : Bool
  pair_change_min : ℚ
  pair_change_dip : ℚ
  pair_change_cutoff : ℚ
deriving Repr, DecidableEq

/-- Entry of `Market.last_pairs[pair]`. -/
structure LastPair where
  value : ℚ
  change : ℚ
  delta : ℚ
  filtered : Bool
deriving Repr, DecidableEq

/-- Embedding of `Market.apply_pair_change_filter` (src/core/market.py,
lines 504-578) for one pair.  Returns the filtered flag (true = pair
disallowed) and the updated `last_pairs[pair]` entry; the two early
returns leave `last_pairs` untouched. -/
def apply_pair_change_filter (cfg : PairChangeConfig) (last : Option LastPair)
    (change value : ℚ) : Bool × Option LastPair :=
  if !cfg.pair_change_filter then (false, last)
  else if !cfg.pair_dip_filter then (decide (change < cfg.pair_change_min), last)
  else
    let change_min := cfg.pair_change_min
    let change_max := cfg.pair_change_min
    let change_dip := cfg.pair_change_dip
    let change_cutoff := cfg.pair_change_cutoff
    match last with
    | some lp =>
      let change_delta := lp.delta + change
      let fd :=
        if lp.filtered then
          if change_delta < -change_dip then (true, -change_dip)
          else if change_delta ≥ change_min then
            (false, if change_delta > change_max then change_max else change_delta)
          else (true, change_delta)
        else
          if change_delta ≤ -change_cutoff then
            (true, if change_delta < -change_dip then -change_dip else change_delta)
          else if change_delta > change_max then (false, change_max)
          else (false, change_delta)
      (fd.1, some ⟨value, change, fd.2, fd.1⟩)
    | none =>
      let fd :=
        if change ≥ change_min then
          (false, if change > change_max then change_max else change)
        else
          (true, if change < -change_dip then -change_dip else change)
      (fd.1, some ⟨value, change, fd.2, fd.1⟩)

/-- Embedding of the append loop of `Market.update_mas`
(src/core/market.py, lines 1446-1448): one trailing-window mean for each
of the `num` new source elements, at indices
`range(source_len - num, source_len)`. -/
def update_mas_new_elems (source : List ℚ) (num window : ℕ) : List ℚ :=
  (List.range' (source.length - num) num).map (fun index =>
    ((source.drop (index - window)).take window).sum / window)

/-- Embedding of the per-window body of `Market.update_mas`
(src/core/market.py, lines 1439-1454): append the new trailing-window
means, then truncate when more than 60 elements over `min_tick_length`. -/
def update_mas_window (min_tick_length : ℕ) (source ma : List ℚ)
    (num window : ℕ) : List ℚ :=
  if ((ma ++ update_mas_new_elems source num window).length : ℤ)
      - min_tick_length > 60 then
    (ma ++ update_mas_new_elems source num window).drop
      (((ma ++ update_mas_new_elems source num window).length : ℤ)
        - min_tick_length).toNat
  else ma ++ update_mas_new_elems source num window

/-! ## src/core/detector.py : triggers and rule evaluation -/

/-- Slice of a `ConditionTrigger` dict as built by
`Detector._get_detection_trigger`: the evaluation time, the `set` flag
(0 or 1) and the positional metadata used by the crossover rules. -/
structure Trigger where
  time : ℚ
  set : ℕ
  ma_values : List ℚ
  ma_positions : List ℕ
deriving Repr, DecidableEq

/-- Last element of a list (`l[-1]` under a length guard), defaulting. -/
def last1 (l : List ℚ) : ℚ :=
  l.getLast?.getD 0

/-- Second-to-last element of a list (`l[-2]` under a length guard),
defaulting. -/
def last2 (l : List ℚ) : ℚ :=
  l.dropLast.getLast?.getD 0

/-- Embedding of `Detector._check_ma_crossover` (src/core/detector.py,
lines 1546-1643) for one evaluation.  `prev` is the live
`detection_triggers[pair][detection_name][condition_index]` entry from the
previous cycle (`none` models the `KeyError` when absent).  The
`math.isclose(x, 0.0)` guard with default tolerances holds exactly for
`x = 0`.  Returns the rule state and the metadata
`{ma_values, ma_positions}`; the insufficient-data branch returns
`(0, {[0.0], [0]})`. -/
def check_ma_crossover (first_ma second_ma : List ℚ) (prev : Option Trigger) :
    ℕ × (List ℚ × List ℕ) :=
  if first_ma.length < 2 ∨ second_ma.length < 2
      ∨ last2 first_ma = 0 ∨ last2 second_ma = 0 then
    (0, ([0], [0]))
  else if last1 first_ma < last1 second_ma then
    (0, ([last1 first_ma, last1 second_ma], [0]))
  else
    let ma_crossover :=
      match prev with
      | some t =>
        match t.ma_positions.head? with
        | some p => if p = 0 then 1 else 0
        | none => 0
      | none => 0
    (ma_crossover, ([last1 first_ma, last1 second_ma], [1]))

/-- Embedding of `Detector._get_detection_trigger` (src/core/detector.py,
lines 649-697) for a condition consisting of the single rule
`('ma_crossover', a, b)`: the trigger's `set` flag is
`int(sum(states) == len(states))` over the one returned state. -/
def get_crossover_trigger (first_ma second_ma : List ℚ) (now : ℚ)
    (prev : Option Trigger) : Trigger :=
  let sm := check_ma_crossover first_ma second_ma prev
  { time := now
    set := if sm.1 = 1 then 1 else 0
    ma_values := sm.2.1
    ma_positions := sm.2.2 }

/-- Embedding of one iteration of `Detector.update_detection_triggers`
(src/core/detector.py, lines 461-492) for a single condition holding the
single rule `('ma_crossover', a, b)`.  Returns the rule state produced by
this cycle's evaluation and the trigger stored for the next cycle: an
already-set trigger is kept (its time refreshed only when the
re-evaluation succeeds), otherwise the fresh trigger is stored. -/
def crossover_cycle (first_ma second_ma : List ℚ) (now : ℚ)
    (old : Option Trigger) : ℕ × Trigger :=
  match old with
  | some o =>
    if o.set = 1 then
      let test := get_crossover_trigger first_ma second_ma now (some o)
      (test.set, if test.set = 1 then { o with time := test.time } else o)
    else
      let t := get_crossover_trigger first_ma second_ma now (some o)
      (t.set, t)
  | none =>
    let t := get_crossover_trigger first_ma second_ma now none
    (t.set, t)

/-- Embedding of the sticky-update rule of
`Detector.update_detection_triggers` (src/core/detector.py, lines 472-486)
with the fresh evaluation result abstracted: if the stored trigger is set,
it is kept and only its time is refreshed when the re-evaluation is also
set; otherwise the fresh trigger replaces it. -/
def update_trigger_sticky (old : Option Trigger) (fresh : Trigger) : Trigger :=
  match old with
  | some o =>
    if o.set = 1 then
      if fresh.set = 1 then { o with time := fresh.time } else o
    else fresh
  | none => fresh

/-- Embedding of the per-trigger body of `Detector._timeout_triggers`
(src/core/detector.py, lines 709-714): when `time_frame_max` is
configured and more than that many seconds elapsed since the trigger's
time, the trigger is unset. -/
def timeout_trigger (time_frame_max : Option ℚ) (current_time : ℚ)
    (t : Trigger) : Trigger :=
  match time_frame_max with
  | some m => if current_time - t.time > m then { t with set := 0 } else t
  | none => t

/-! ## src/core/detector.py : detection processing -/

/-- Processing parameters of one detection, as consumed by
`Detector._filter_detection` and `Detector.process_detections`.  The
ordered filter chain (`Detector.filter_methods`, src/core/detector.py,
lines 244-255) is abstracted as one entry per configured filter method
call: whether the parameter is configured (`params[param] is not None`)
and whether the method call reports the detection as filtered. -/
structure DetParams where
  time_frame_max : Option ℚ
  chain : List (Bool × Bool)
  rsi_buy_veto : Bool
deriving Repr, DecidableEq

/-- Embedding of the filter loop of `Detector._filter_detection`
(src/core/detector.py, lines 807-814): starting from `triggered = true`,
the first configured filter whose method vetoes clears the detection's
triggers and unsets `triggered`, after which the loop breaks.  Returns
`(triggered, cleared)`. -/
def run_filter_chain : List (Bool × Bool) → Bool × Bool
  | [] => (true, false)
  | e :: rest => if e.1 && e.2 then (false, true) else run_filter_chain rest

/-- Embedding of `Detector._filter_detection` (src/core/detector.py,
lines 787-825) with the individual filter methods abstracted into
`DetParams.chain`.  Returns `(filtered_out, clear)` where `clear` records
the `self.detection_triggers[pair][detection_name] = []` assignments. -/
def filter_detection (p : DetParams) (all_set : Bool) : Bool × Bool :=
  if all_set then
    let tc := run_filter_chain p.chain
    if tc.1 && p.rsi_buy_veto then (true, true)
    else (!tc.1, tc.2)
  else (true, false)

/-- Pointwise update of an association list, modelling assignment to an
existing key of a Python dict. -/
def setEntry (k : String) (v : List Trigger) (m : List (String × List Trigger)) :
    List (String × List Trigger) :=
  m.map (fun e => if e.1 = k then (k, v) else e)

/-- Embedding of one iteration of the detection loop of
`Detector.process_detections` (src/core/detector.py, lines 543-562) for
the detection `name`: apply `_timeout_triggers` (which mutates the stored
triggers in place), test whether all condition triggers are set, run the
filter chain, and if the detection passes apply the flash-crash guard —
`value_diff_percent = close_times[-1] / close_times[-2]` exactly as the
source computes it — deferring the action when the quotient is at or
below `detection_flash_crash_sens` and otherwise dispatching the action
and clearing the detection's triggers.  Returns the dispatched action (at
most one per detection per cycle) and the updated trigger map. -/
def process_one (flash_crash_sens : ℚ) (close_times : List ℚ) (p : DetParams)
    (name : String) (trigMap : List (String × List Trigger)) :
    Option String × List (String × List Trigger) :=
  let current_time := last1 close_times
  let triggers := ((trigMap.lookup name).getD []).map
    (timeout_trigger p.time_frame_max current_time)
  let map1 := setEntry name triggers trigMap
  let all_set := (triggers.map (fun t => t.set)).sum == triggers.length
  let fc := filter_detection p all_set
  if fc.1 then
    (none, if fc.2 then setEntry name [] map1 else map1)
  else
    let value_diff_percent := last1 close_times / last2 close_times
    if value_diff_percent ≤ flash_crash_sens then (none, map1)
    else (some name, setEntry name [] map1)

/-- Specification-side definition of the flash-crash guard: the ratio of
the pair's close values at the last two ticks, compared against the
sensitivity threshold (the spec defers the action when the value ratio is
at or below the threshold). -/
def flash_crash_guard_spec (close_values : List ℚ) (sens : ℚ) : Bool :=
  last1 close_values / last2 close_values ≤ sens

/-! ## src/core/detector.py : follow filter -/

/-- Normalized follow rule of a detection's `follow` parameter, after the
default-filling loop of `Detector._detection_filter_follow`
(src/core/detector.py, lines 981-999): absent bounds are `None` except
`min_secs`/`max_secs`, which default to configured values. -/
structure FollowRule where
  groups : List String
  types : List (Option String)
  min_delta : Option ℚ
  max_delta : Option ℚ
  min_ma_delta : Option ℚ
  max_ma_delta : Option ℚ
  min_secs : Option ℚ
  max_secs : Option ℚ
deriving Repr, DecidableEq

/-- Entry of `Detector.last_detections[pair][group]`. -/
structure LastDetection where
  type : Option String
  name : String
  time : ℚ
  value : ℚ
  ma_value : ℚ
deriving Repr, DecidableEq

/-- Embedding of `Detector._filter_follow_rule_group`
(src/core/detector.py, lines 1054-1129).  Returns true when the rule
fails (is filtered) for this group and false when it passes.  An absent
group returns false when `None ∈ types` (early return) and otherwise true
(the `KeyError` path). -/
def filter_follow_rule_group (current_value current_time : ℚ)
    (last_detections : List (String × LastDetection)) (rule : FollowRule)
    (group : String) : Bool :=
  match last_detections.lookup group with
  | none => if none ∈ rule.types then false else true
  | some ld =>
    if ld.type ∈ rule.types then
      let last_norm_value := ld.value / current_value
      let last_ma_norm_value := ld.ma_value / current_value
      let follow_delta := 1 - last_norm_value
      let follow_ma_delta := 1 - last_ma_norm_value
      if rule.min_secs.elim false (fun ms => current_time < ld.time + ms) then true
      else if rule.max_secs.elim false (fun ms => current_time > ld.time + ms) then true
      else if rule.min_delta.elim false (fun d => follow_delta < d) then true
      else if rule.max_delta.elim false (fun d => follow_delta ≥ d) then true
      else if rule.min_ma_delta.elim false (fun d => follow_ma_delta < d) then true
      else if rule.max_ma_delta.elim false (fun d => follow_ma_delta ≥ d) then true
      else false
    else true

/-- Embedding of the rule loop of `Detector._detection_filter_follow`
(src/core/detector.py, lines 1001-1006): the loop returns false (not
filtered) as soon as one (rule, group) combination passes, and true
(filtered) only when every combination is individually filtered. -/
def detection_filter_follow (current_value current_time : ℚ)
    (last_detections : List (String × LastDetection))
    (followRules : List FollowRule) : Bool :=
  followRules.all (fun rule => rule.groups.all (fun group =>
    filter_follow_rule_group current_value current_time last_detections rule group))

/-- Four consecutive evaluation cycles of a condition holding the single
rule `('ma_crossover', a, b)`, starting with no stored trigger, given the
two MA arrays visible at each cycle.  Returns the four rule states in
order. -/
def crossover_run4 (fa0 sa0 fa1 sa1 fa2 sa2 fa3 sa3 : List ℚ)
    (t0 t1 t2 t3 : ℚ) : List ℕ :=
  let c0 := crossover_cycle fa0 sa0 t0 none
  let c1 := crossover_cycle fa1 sa1 t1 (some c0.2)
  let c2 := crossover_cycle fa2 sa2 t2 (some c1.2)
  let c3 := crossover_cycle fa3 sa3 t3 (some c2.2)
  [c0.1, c1.1, c2.1, c3.1]

/-! ## Theorems -/

theorem lookup_cons_triggers (k a : String) (b : List Trigger)
    (rest : List (String × List Trigger)) :
    ((a, b) :: rest).lookup k
      = if (k == a) = true then some b else rest.lookup k := by
  rcases h : k == a with _ | _ <;> simp [List.lookup, h]

theorem setEntry_cons (k a : String) (v b : List Trigger)
    (rest : List (String × List Trigger)) :
    setEntry k v ((a, b) :: rest)
      = (if a = k then (k, v) else (a, b)) :: setEntry k v rest := rfl

theorem lookup_setEntry_self (k : String) (v : List Trigger)
    (m : List (String × List Trigger)) (w : List Trigger)
    (h : m.lookup k = some w) : (setEntry k v m).lookup k = some v := by
  induction m with
  | nil => simp [List.lookup] at h
  | cons e rest ih =>
    obtain ⟨a, b⟩ := e
    by_cases he : a = k
    · subst he
      rw [setEntry_cons, if_pos rfl, lookup_cons_triggers]
      simp
    · have hbeq : (k == a) = false := by
        simp [Ne.symm he]
      rw [lookup_cons_triggers, hbeq] at h
      rw [setEntry_cons, if_neg he, lookup_cons_triggers, hbeq]
      simpa using ih h

theorem lookup_setEntry_other (k other : String) (v : List Trigger)
    (m : List (String × List Trigger)) (h : other ≠ k) :
    (setEntry k v m).lookup other = m.lookup other := by
  induction m with
  | nil => simp [setEntry]
  | cons e rest ih =>
    obtain ⟨a, b⟩ := e
    by_cases he : a = k
    · subst he
      have hbeq : (other == a) = false := by
        simp [h]
      rw [setEntry_cons, if_pos rfl, lookup_cons_triggers, hbeq,
          lookup_cons_triggers, hbeq]
      exact ih
    · rw [setEntry_cons, if_neg he, lookup_cons_triggers, lookup_cons_triggers]
      rcases hx : other == a with _ | _
      · simpa using ih
      · simp

theorem run_filter_chain_pass (chain : List (Bool × Bool))
    (h : ∀ e ∈ chain, ¬ (e.1 = true ∧ e.2 = true)) :
    run_filter_chain chain = (true, false) := by
  induction chain with
  | nil => rfl
  | cons e rest ih =>
    have he := h e (by simp)
    have hee : (e.1 && e.2) = false := by
      rcases e with ⟨a, b⟩
      cases a <;> cases b <;> simp_all
    have hrest : ∀ x ∈ rest, ¬ (x.1 = true ∧ x.2 = true) := by
      intro x hx
      exact h x (by simp [hx])
    simpa [run_filter_chain, hee] using ih hrest

theorem run_filter_chain_veto (chain : List (Bool × Bool))
    (h : ∃ e ∈ chain, e.1 = true ∧ e.2 = true) :
    run_filter_chain chain = (false, true) := by
  induction chain with
  | nil => simp at h
  | cons e rest ih =>
    by_cases hee : (e.1 && e.2) = true
    · simp [run_filter_chain, hee]
    · have he : ¬ (e.1 = true ∧ e.2 = true) := by
        rcases e with ⟨a, b⟩
        cases a <;> cases b <;> simp_all
      have hrest : ∃ x ∈ rest, x.1 = true ∧ x.2 = true := by
        rcases h with ⟨x, hx, hx2⟩
        rcases List.mem_cons.mp hx with rfl | hmem
        · exact absurd hx2 he
        · exact ⟨x, hmem, hx2⟩
      simpa [run_filter_chain, hee] using ih hrest

theorem sum_set_eq_length (l : List Trigger) (h : ∀ t ∈ l, t.set = 1) :
    (l.map (fun t => t.set)).sum = l.length := by
  induction l with
  | nil => rfl
  | cons t rest ih =>
    have ht := h t (by simp)
    have hrest : ∀ x ∈ rest, x.set = 1 := fun x hx => h x (by simp [hx])
    simp [ht, ih hrest]
    omega

/-- C2: for a condition holding the single rule `ma_crossover(a,b)`
evaluated once per tick cycle, with both MA arrays of length at least two
and the compared previous-sample MA values nonzero (so the
insufficient-data branch is not taken), the four-cycle sequence
`MA[a]<MA[b]`, `MA[a]<MA[b]`, `MA[a]>=MA[b]`, `MA[a]>=MA[b]` returns the
rule states 0, 0, 1, 0 in order: the crossover fires exactly once, on the
transition tick, because the current position is compared against the
previous cycle's position stored on the live ConditionTrigger. -/
theorem C2_ma_crossover_fires_once
    (fa0 fa1 fa2 fa3 sa0 sa1 sa2 sa3 : List ℚ) (t0 t1 t2 t3 : ℚ)
    (hl0 : 2 ≤ fa0.length) (hm0 : 2 ≤ sa0.length)
    (hl1 : 2 ≤ fa1.length) (hm1 : 2 ≤ sa1.length)
    (hl2 : 2 ≤ fa2.length) (hm2 : 2 ≤ sa2.length)
    (hl3 : 2 ≤ fa3.length) (hm3 : 2 ≤ sa3.length)
    (hz0 : last2 fa0 ≠ 0) (hw0 : last2 sa0 ≠ 0)
    (hz1 : last2 fa1 ≠ 0) (hw1 : last2 sa1 ≠ 0)
    (hz2 : last2 fa2 ≠ 0) (hw2 : last2 sa2 ≠ 0)
    (hz3 : last2 fa3 ≠ 0) (hw3 : last2 sa3 ≠ 0)
    (hb0 : last1 fa0 < last1 sa0) (hb1 : last1 fa1 < last1 sa1)
    (ha2 : last1 sa2 ≤ last1 fa2) (ha3 : last1 sa3 ≤ last1 fa3) :
    crossover_run4 fa0 sa0 fa1 sa1 fa2 sa2 fa3 sa3 t0 t1 t2 t3
      = [0, 0, 1, 0] := by
  have g0 : ¬ (fa0.length < 2 ∨ sa0.length < 2
      ∨ last2 fa0 = 0 ∨ last2 sa0 = 0) := by
    push_neg
    exact ⟨by omega, by omega, hz0, hw0⟩
  have g1 : ¬ (fa1.length < 2 ∨ sa1.length < 2
      ∨ last2 fa1 = 0 ∨ last2 sa1 = 0) := by
    push_neg
    exact ⟨by omega, by omega, hz1, hw1⟩
  have g2 : ¬ (fa2.length < 2 ∨ sa2.length < 2
      ∨ last2 fa2 = 0 ∨ last2 sa2 = 0) := by
    push_neg
    exact ⟨by omega, by omega, hz2, hw2⟩
  have g3 : ¬ (fa3.length < 2 ∨ sa3.length < 2
      ∨ last2 fa3 = 0 ∨ last2 sa3 = 0) := by
    push_neg
    exact ⟨by omega, by omega, hz3, hw3⟩
  have n2 : ¬ (last1 fa2 < last1 sa2) := not_lt.mpr ha2
  have n3 : ¬ (last1 fa3 < last1 sa3) := not_lt.mpr ha3
  have h0 : crossover_cycle fa0 sa0 t0 none
      = (0, ⟨t0, 0, [last1 fa0, last1 sa0], [0]⟩) := by
    simp [crossover_cycle, get_crossover_trigger, check_ma_crossover, g0, hb0]
  have h1 : crossover_cycle fa1 sa1 t1
        (some ⟨t0, 0, [last1 fa0, last1 sa0], [0]⟩)
      = (0, ⟨t1, 0, [last1 fa1, last1 sa1], [0]⟩) := by
    simp [crossover_cycle, get_crossover_trigger, check_ma_crossover, g1, hb1]
  have h2 : crossover_cycle fa2 sa2 t2
        (some ⟨t1, 0, [last1 fa1, last1 sa1], [0]⟩)
      = (1, ⟨t2, 1, [last1 fa2, last1 sa2], [1]⟩) := by
    simp [crossover_cycle, get_crossover_trigger, check_ma_crossover, g2, n2]
  have h3 : crossover_cycle fa3 sa3 t3
        (some ⟨t2, 1, [last1 fa2, last1 sa2], [1]⟩)
      = (0, ⟨t2, 1, [last1 fa2, last1 sa2], [1]⟩) := by
    simp [crossover_cycle, get_crossover_trigger, check_ma_crossover, g3, n3]
  unfold crossover_run4
  simp only [h0, h1, h2, h3]

/-- Witness for C2: concrete MA arrays realizing the four-cycle
below/below/above/above sequence. -/
theorem C2_ma_crossover_fires_once_witness :
    crossover_run4 [1, 1] [1, 2] [1, 1] [1, 2] [1, 3] [1, 2] [1, 3] [1, 2]
      0 1 2 3 = [0, 0, 1, 0] := by
  refine C2_ma_crossover_fires_once _ _ _ _ _ _ _ _ _ _ _ _
    (by norm_num) (by norm_num) (by norm_num) (by norm_num)
    (by norm_num) (by norm_num) (by norm_num) (by norm_num)
    ?_ ?_ ?_ ?_ ?_ ?_ ?_ ?_ ?_ ?_ ?_ ?_ <;>
    norm_num [last1, last2]

/-- C3: a set ConditionTrigger is sticky — a failing re-evaluation leaves
it set with its time unrefreshed, a passing re-evaluation refreshes only
its time — and `_timeout_triggers` unsets it exactly when more than
`time_frame_max` seconds separate its recorded time from the current tick
time. -/
theorem C3_sticky_trigger_semantics (old fresh : Trigger) (m current : ℚ)
    (hset : old.set = 1) :
    (fresh.set = 0 → update_trigger_sticky (some old) fresh = old)
    ∧ (fresh.set = 1 → update_trigger_sticky (some old) fresh
        = { old with time := fresh.time })
    ∧ ((timeout_trigger (some m) current old).set = 0 ↔ current - old.time > m) := by
  refine ⟨?_, ?_, ?_⟩
  · intro hf
    simp [update_trigger_sticky, hset, hf]
  · intro hf
    simp [update_trigger_sticky, hset, hf]
  · unfold timeout_trigger
    by_cases h : current - old.time > m
    · simp [h]
    · simp [h, hset]

/-- Witness for C3 at a concrete set trigger, failing and passing
re-evaluations, and a concrete timeout bound. -/
theorem C3_sticky_trigger_semantics_witness :
    update_trigger_sticky (some ⟨2, 1, [], []⟩) ⟨5, 0, [], []⟩ = ⟨2, 1, [], []⟩
    ∧ update_trigger_sticky (some ⟨2, 1, [], []⟩) ⟨5, 1, [], []⟩ = ⟨5, 1, [], []⟩
    ∧ ((timeout_trigger (some 3) 10 ⟨2, 1, [], []⟩).set = 0
        ↔ (10 : ℚ) - (⟨2, 1, [], []⟩ : Trigger).time > 3) :=
  ⟨(C3_sticky_trigger_semantics ⟨2, 1, [], []⟩ ⟨5, 0, [], []⟩ 3 10 rfl).1 rfl,
   (C3_sticky_trigger_semantics ⟨2, 1, [], []⟩ ⟨5, 1, [], []⟩ 3 10 rfl).2.1 rfl,
   (C3_sticky_trigger_semantics ⟨2, 1, [], []⟩ ⟨5, 1, [], []⟩ 3 10 rfl).2.2⟩

theorem sum_take_drop_eq (s : List ℚ) (j : ℕ) :
    ∀ w, j + w ≤ s.length →
      ((s.drop j).take w).sum
        = ((List.range w).map (fun k => s.getD (j + k) 0)).sum := by
  intro w
  induction w with
  | zero => simp
  | succ n ih =>
    intro h
    have hn : j + n ≤ s.length := by omega
    have hlt : j + n < s.length := by omega
    rw [List.take_succ, List.sum_append, ih hn, List.range_succ, List.map_append,
        List.sum_append]
    simp [List.getElem?_drop, List.getD_eq_getElem?_getD,
          List.getElem?_eq_getElem hlt]

/-- C1: the claim states that after any successful `update_tick_data` the
stored close-times are dense (consecutive times differ by exactly one
interval), including when the new observation arrives two or more
intervals after the last stored tick.  The code computes
`tick_gap = delta_seconds // interval_secs` without subtracting one, so
`_restore_ticks` also fills the new observation's own boundary and the
subsequent append duplicates that timestamp: with interval 60, last tick
at time 0, and a call at time 125 the call succeeds but stores close
times `[0, 60, 120, 120]`, which is not dense. -/
theorem C1_tick_density_violated :
    (update_tick_data ⟨60, 60, 100⟩ ⟨[0], [10], [5], [], [], []⟩ 125 20 6).map
        (fun st => st.close_times) = some [0, 60, 120, 120]
    ∧ (update_tick_data ⟨60, 60, 100⟩ ⟨[0], [10], [5], [], [], []⟩ 125 20 6).map
        (fun st => tick_times_dense st.close_times 60) = some false := by
  have hf1 : ⌊(125 : ℚ) / 60⌋ = 2 := by
    rw [Int.floor_eq_iff]
    norm_num
  have hf2 : ⌊(120 : ℚ) - 0⌋ = 120 := by
    rw [Int.floor_eq_iff]
    norm_num
  constructor <;>
    norm_num [update_tick_data, get_tick_delta, qmod, hf1, hf2, restore_ticks,
      restore_ticks_loop, restore_lookup, truncate_tick_data, backup_tick_data,
      List.findIdx?, tick_times_dense]

/-- C8: the claim states that the `k`-th of `n` missing ticks not found in
backup is filled with `v_last + k*(v_new - v_last)/(n+1)` (linear
interpolation).  The code freezes `last_value` before the loop instead of
tracking the appended values, so with `v_last = 0`, `v_new = 3`, `n = 2`
it fills `[1, 3/2]` while the straight line gives `[1, 2]`: the second
filled value is `3/2`, not `0 + 2*(3 - 0)/(2 + 1) = 2`. -/
theorem C8_interpolation_not_linear :
    (restore_ticks ⟨60, 60, 100⟩ ⟨[0], [0], [0], [], [], []⟩ 2 3 0).1.close_values
        = [0, 1, 3/2]
    ∧ (restore_ticks ⟨60, 60, 100⟩ ⟨[0], [0], [0], [], [], []⟩ 2 3 0).2 = 2
    ∧ (3 : ℚ)/2 ≠ 0 + 2 * (3 - 0) / (2 + 1) := by
  refine ⟨?_, ?_, by norm_num⟩ <;>
    norm_num [restore_ticks, restore_ticks_loop, restore_lookup, List.findIdx?]

/-- C9: for `0 < w ≤ length`, `ar_moving_average` returns an array of the
source's length whose element `i` is the arithmetic mean of
`source[i-w..i-1]` for `i ≥ w` and the placeholder `0` for `i < w`, and
the incremental `update_mas` step appends elements computed by the same
trailing-window mean formula (stated here for the steady state in which
no truncation occurs and every new index has a full trailing window). -/
theorem C9_moving_average_correct (source : List ℚ) (w : ℕ)
    (hw : 0 < w) (hlen : w ≤ source.length) :
    ((ar_moving_average source w).length = source.length
      ∧ ∀ i, i < source.length →
          (ar_moving_average source w).getD i 0
            = if w ≤ i then trailing_mean source w i else 0)
    ∧ ∀ (mtl num : ℕ) (ma : List ℚ),
        num ≤ source.length → w + num ≤ source.length →
        ma.length + num ≤ mtl + 60 →
        update_mas_window mtl source ma num w
          = ma ++ (List.range' (source.length - num) num).map
              (fun i => trailing_mean source w i) := by
  constructor
  · constructor
    · simp [ar_moving_average]
    · intro i hi
      have : (ar_moving_average source w).getD i 0
          = if w ≤ i then
              ((source.drop (i - w)).take w).sum / w
            else 0 := by
        simp [ar_moving_average, List.getD_eq_getElem?_getD,
              List.getElem?_range, hi]
      rw [this]
      by_cases hwi : w ≤ i
      · rw [if_pos hwi, if_pos hwi, trailing_mean]
        have hjw : (i - w) + w ≤ source.length := by omega
        rw [sum_take_drop_eq source (i - w) w hjw]
      · rw [if_neg hwi, if_neg hwi]
  · intro mtl num ma hnum hwnum hmtl
    have hlen1 : (ma ++ update_mas_new_elems source num w).length
        = ma.length + num := by
      simp [update_mas_new_elems]
    have hno : ¬ (((ma.length + num : ℕ) : ℤ) - mtl > 60) := by
      push_neg
      omega
    unfold update_mas_window
    rw [hlen1, if_neg hno]
    congr 1
    unfold update_mas_new_elems
    apply List.map_congr_left
    intro i hi
    have hmem := List.mem_range'_1.mp hi
    have hwle : w ≤ i := by omega
    have hjw : (i - w) + w ≤ source.length := by omega
    rw [sum_take_drop_eq source (i - w) w hjw, trailing_mean]

/-- Witness for C9 at concrete inputs: source `[1, 2, 3]`, window 2
(full-array part) and source `[1, 2, 3, 4]` with one new tick
(incremental part). -/
theorem C9_moving_average_correct_witness :
    (ar_moving_average [1, 2, 3] 2).getD 2 0 = trailing_mean [1, 2, 3] 2 2
    ∧ update_mas_window 100 [1, 2, 3, 4] [9] 1 2
        = [9] ++ (List.range' 3 1).map (fun i => trailing_mean [1, 2, 3, 4] 2 i) := by
  constructor
  · have h := (C9_moving_average_correct [1, 2, 3] 2 (by decide) (by decide)).1.2
      2 (by decide)
    simpa using h
  · exact (C9_moving_average_correct [1, 2, 3, 4] 2 (by decide) (by decide)).2
      100 1 [9] (by decide) (by decide) (by decide)

/-- C4: when every ConditionTrigger of a detection is set and the filter
chain and flash-crash guard let it through, `process_detections` for that
cycle dispatches the action exactly once (a single dispatch event for the
detection) and immediately leaves that detection's stored trigger state
empty, without touching any other detection's triggers. -/
theorem C4_detection_firing_clears_triggers (sens : ℚ)
    (close_times : List ℚ) (p : DetParams) (name : String)
    (trigMap : List (String × List Trigger)) (ts : List Trigger)
    (hlook : trigMap.lookup name = some ts)
    (hset : ∀ t ∈ ts, t.set = 1)
    (htfm : p.time_frame_max = none)
    (hchain : ∀ e ∈ p.chain, ¬ (e.1 = true ∧ e.2 = true))
    (hrsi : p.rsi_buy_veto = false)
    (hguard : sens < last1 close_times / last2 close_times) :
    (process_one sens close_times p name trigMap).1 = some name
    ∧ (process_one sens close_times p name trigMap).2.lookup name = some []
    ∧ ∀ other, other ≠ name →
        (process_one sens close_times p name trigMap).2.lookup other
          = trigMap.lookup other := by
  have hid : ((trigMap.lookup name).getD []).map
      (timeout_trigger p.time_frame_max (last1 close_times)) = ts := by
    rw [hlook, htfm]
    have hto : timeout_trigger none (last1 close_times) = id := by
      funext t
      rfl
    simp [hto]
  have hsum : ((ts.map (fun t => t.set)).sum == ts.length) = true := by
    simp [sum_set_eq_length ts hset]
  have hfc : filter_detection p true = (false, false) := by
    simp [filter_detection, run_filter_chain_pass p.chain hchain, hrsi]
  have hng : ¬ (last1 close_times / last2 close_times ≤ sens) :=
    not_le.mpr hguard
  have hrun : process_one sens close_times p name trigMap
      = (some name, setEntry name [] (setEntry name ts trigMap)) := by
    simp [process_one, hid, hsum, hfc, hng]
  refine ⟨by rw [hrun], ?_, ?_⟩
  · rw [hrun]
    exact lookup_setEntry_self name [] _ ts
      (lookup_setEntry_self name ts trigMap ts hlook)
  · intro other hother
    rw [hrun]
    rw [lookup_setEntry_other name other [] _ hother,
        lookup_setEntry_other name other ts trigMap hother]

/-- Witness for C4 at a concrete all-set trigger map, empty filter chain
and a non-crashing pair of close times. -/
theorem C4_detection_firing_clears_triggers_witness :
    (process_one (1/2) [60, 120] ⟨none, [], false⟩ "d"
        [("d", [⟨120, 1, [], []⟩]), ("e", [⟨7, 0, [], []⟩])]).1 = some "d"
    ∧ (process_one (1/2) [60, 120] ⟨none, [], false⟩ "d"
        [("d", [⟨120, 1, [], []⟩]), ("e", [⟨7, 0, [], []⟩])]).2.lookup "d"
        = some []
    ∧ (process_one (1/2) [60, 120] ⟨none, [], false⟩ "d"
        [("d", [⟨120, 1, [], []⟩]), ("e", [⟨7, 0, [], []⟩])]).2.lookup "e"
        = [("d", [⟨120, 1, [], []⟩]), ("e", [⟨7, 0, [], []⟩])].lookup "e" := by
  have h := C4_detection_firing_clears_triggers (1/2) [60, 120]
    ⟨none, [], false⟩ "d" [("d", [⟨120, 1, [], []⟩]), ("e", [⟨7, 0, [], []⟩])]
    [⟨120, 1, [], []⟩] (by simp [List.lookup]) (by simp) rfl (by simp) rfl
    (by norm_num [last1, last2])
  exact ⟨h.1, h.2.1, h.2.2 "e" (by simp)⟩

/-- C5: the claim states that the flash-crash guard compares the ratio of
the pair's close values at the last two ticks against
`config['detection_flash_crash_sens']` and defers the dispatch when that
value ratio is at or below the threshold.  The code instead computes
`value_diff_percent = close_times[-1] / close_times[-2]` from the
timestamps (src/core/detector.py, line 552): with close values
`[100, 50]` (value ratio `1/2`, at the sensitivity threshold `1/2`, so
the claim requires a deferral) and close times `[60, 120]` (timestamp
quotient 2), the action is dispatched anyway — the close values do not
even enter `process_one`. -/
theorem C5_flash_crash_guard_reads_times :
    (process_one (1/2) [60, 120] ⟨none, [], false⟩ "d"
        [("d", [⟨120, 1, [], []⟩])]).1 = some "d"
    ∧ flash_crash_guard_spec [100, 50] (1/2) = true := by
  constructor
  · norm_num [process_one, setEntry, timeout_trigger, filter_detection,
      run_filter_chain, last1, last2, List.lookup]
  · norm_num [flash_crash_guard_spec, last1, last2]

/-- C10: when every ConditionTrigger of a detection is set and some
configured filter of the chain vetoes the firing, `_filter_detection`
clears that detection's triggers to the empty state exactly as a
successful firing would, no action is dispatched, and no other
detection's triggers are modified. -/
theorem C10_filter_veto_clears_triggers (sens : ℚ)
    (close_times : List ℚ) (p : DetParams) (name : String)
    (trigMap : List (String × List Trigger)) (ts : List Trigger)
    (hlook : trigMap.lookup name = some ts)
    (hset : ∀ t ∈ ts, t.set = 1)
    (htfm : p.time_frame_max = none)
    (hveto : ∃ e ∈ p.chain, e.1 = true ∧ e.2 = true) :
    (process_one sens close_times p name trigMap).1 = none
    ∧ (process_one sens close_times p name trigMap).2.lookup name = some []
    ∧ ∀ other, other ≠ name →
        (process_one sens close_times p name trigMap).2.lookup other
          = trigMap.lookup other := by
  have hid : ((trigMap.lookup name).getD []).map
      (timeout_trigger p.time_frame_max (last1 close_times)) = ts := by
    rw [hlook, htfm]
    have hto : timeout_trigger none (last1 close_times) = id := by
      funext t
      rfl
    simp [hto]
  have hsum : ((ts.map (fun t => t.set)).sum == ts.length) = true := by
    simp [sum_set_eq_length ts hset]
  have hfc : filter_detection p true = (true, true) := by
    simp [filter_detection, run_filter_chain_veto p.chain hveto]
  have hrun : process_one sens close_times p name trigMap
      = (none, setEntry name [] (setEntry name ts trigMap)) := by
    simp [process_one, hid, hsum, hfc]
  refine ⟨by rw [hrun], ?_, ?_⟩
  · rw [hrun]
    exact lookup_setEntry_self name [] _ ts
      (lookup_setEntry_self name ts trigMap ts hlook)
  · intro other hother
    rw [hrun]
    rw [lookup_setEntry_other name other [] _ hother,
        lookup_setEntry_other name other ts trigMap hother]

/-- Witness for C10 at a concrete all-set trigger map whose single
configured filter vetoes. -/
theorem C10_filter_veto_clears_triggers_witness :
    (process_one (1/2) [60, 120] ⟨none, [(true, true)], false⟩ "d"
        [("d", [⟨120, 1, [], []⟩]), ("e", [⟨7, 0, [], []⟩])]).1 = none
    ∧ (process_one (1/2) [60, 120] ⟨none, [(true, true)], false⟩ "d"
        [("d", [⟨120, 1, [], []⟩]), ("e", [⟨7, 0, [], []⟩])]).2.lookup "d"
        = some []
    ∧ (process_one (1/2) [60, 120] ⟨none, [(true, true)], false⟩ "d"
        [("d", [⟨120, 1, [], []⟩]), ("e", [⟨7, 0, [], []⟩])]).2.lookup "e"
        = [("d", [⟨120, 1, [], []⟩]), ("e", [⟨7, 0, [], []⟩])].lookup "e" := by
  have h := C10_filter_veto_clears_triggers (1/2) [60, 120]
    ⟨none, [(true, true)], false⟩ "d"
    [("d", [⟨120, 1, [], []⟩]), ("e", [⟨7, 0, [], []⟩])]
    [⟨120, 1, [], []⟩] (by simp [List.lookup]) (by simp) rfl
    ⟨(true, true), by simp, rfl, rfl⟩
  exact ⟨h.1, h.2.1, h.2.2 "e" (by simp)⟩

/-- C6 counterexample: the claim states the follow filter vetoes whenever
at least one configured follow-rule fails.  With two follow-rules where
the first (group `g1`) passes and the second (group `g2`) fails, the
code's loop returns false (permits the firing) on the first passing
combination, so the detection is not vetoed. -/
theorem C6_follow_counterexample :
    detection_filter_follow 1 100 [("g1", ⟨some "t", "prev", 0, 1, 1⟩)]
      [⟨["g1"], [some "t"], none, none, none, none, none, none⟩,
       ⟨["g2"], [some "t"], none, none, none, none, none, none⟩] = false
    ∧ filter_follow_rule_group 1 100 [("g1", ⟨some "t", "prev", 0, 1, 1⟩)]
        ⟨["g2"], [some "t"], none, none, none, none, none, none⟩ "g2"
        = true := by
  constructor <;> decide

/-- C6 as amended: the follow filter permits the detection to fire
exactly when at least one configured (follow-rule, group) combination
passes its temporal and value-delta checks; it vetoes only when every
combination fails. -/
theorem C6_follow_requires_any_pass (current_value current_time : ℚ)
    (last_detections : List (String × LastDetection))
    (followRules : List FollowRule) :
    detection_filter_follow current_value current_time last_detections
        followRules = false
      ↔ ∃ rule ∈ followRules, ∃ group ∈ rule.groups,
          filter_follow_rule_group current_value current_time last_detections
            rule group = false := by
  rw [← Bool.not_eq_true]
  simp [detection_filter_follow, List.all_eq_true]

/-- C7 counterexample: the claim describes the scenario with only
`pair_change_min = 0.01` and `pair_change_dip = 0.02` fixed, asserting
that an included pair remains included at cumulative delta `-0.019`.
The drop test in the code is `change_delta <= -config['pair_change_cutoff']`
(src/core/market.py, line 548), a separate configuration value: with the
repository's shipped default ratio `pair_change_cutoff = 0.0125`, the pair
entering at change `0.015` is included, but the next call with change
`-0.029` (cumulative delta `-0.019`) filters it out. -/
theorem C7_dip_filter_counterexample :
    (apply_pair_change_filter ⟨true, true, 1/100, 1/50, 1/80⟩ none
        (3/200) 5).1 = false
    ∧ (apply_pair_change_filter ⟨true, true, 1/100, 1/50, 1/80⟩
        (apply_pair_change_filter ⟨true, true, 1/100, 1/50, 1/80⟩ none
          (3/200) 5).2 (-29/1000) 5).1 = true := by
  norm_num [apply_pair_change_filter]

/-- C7 as amended: with `pair_change_min = 0.01`, `pair_change_dip = 0.02`
and additionally `pair_change_cutoff = 0.02` (the configuration value that
actually governs the drop; `pair_change_dip` only clamps the accumulated
delta), the dip filter shows the claimed hysteresis: a pair first seen at
change `0.015` is included (delta clamped to `0.01`); at cumulative
`-0.019` it stays included; at cumulative `-0.021` it is dropped and its
delta is clamped to `-0.02`; a following rise of `0.029` (cumulative
`0.009`) does not re-include it; reaching cumulative `0.01` re-includes
it. -/
theorem C7_dip_filter_hysteresis :
    (apply_pair_change_filter ⟨true, true, 1/100, 1/50, 1/50⟩ none (3/200) 5)
        = (false, some ⟨5, 3/200, 1/100, false⟩)
    ∧ (apply_pair_change_filter ⟨true, true, 1/100, 1/50, 1/50⟩
        (some ⟨5, 3/200, 1/100, false⟩) (-29/1000) 5)
        = (false, some ⟨5, -29/1000, -19/1000, false⟩)
    ∧ (apply_pair_change_filter ⟨true, true, 1/100, 1/50, 1/50⟩
        (some ⟨5, -29/1000, -19/1000, false⟩) (-1/500) 5)
        = (true, some ⟨5, -1/500, -1/50, true⟩)
    ∧ (apply_pair_change_filter ⟨true, true, 1/100, 1/50, 1/50⟩
        (some ⟨5, -1/500, -1/50, true⟩) (29/1000) 5)
        = (true, some ⟨5, 29/1000, 9/1000, true⟩)
    ∧ (apply_pair_change_filter ⟨true, true, 1/100, 1/50, 1/50⟩
        (some ⟨5, 29/1000, 9/1000, true⟩) (1/1000) 5)
        = (false, some ⟨5, 1/1000, 1/100, false⟩) := by
  refine ⟨?_, ?_, ?_, ?_, ?_⟩ <;>
    norm_num [apply_pair_change_filter, Prod.ext_iff]

end CryptoWatcher
